import Mathlib

/-!
Shallow embedding of the PMD-Lookup reconciliation engine
(source: src/api/app.py, function process_files and its inner helper
determine_final_output_details).

Tables are modelled as a list of column names together with a list of rows;
a row is an association list from column names to cell values.  A missing
cell reads as the null value (pandas NaN).  Every pipeline step below is a
direct translation of the corresponding pandas operation in the source.
-/

/-- Calendar date and time of day, the payload of a parsed datetime value
(pandas Timestamp restricted to the fields the program renders). -/
structure DateTime where
  year : Nat
  month : Nat
  day : Nat
  hour : Nat
  minute : Nat
deriving DecidableEq, Repr

/-- Cell value of a table: a string, a number, a datetime, or null (NaN). -/
inductive Value where
  | vStr (s : String)
  | vNum (n : Int)
  | vDate (d : DateTime)
  | vNull
deriving DecidableEq, Repr

/-- Row of a table: an association list from column names to values. -/
abbrev Row := List (String × Value)

/-- Reading a cell: the first entry with the given column name, null when the
row has no such entry (pandas reads NaN from a cell the frame does not hold). -/
def rowGet (r : Row) (k : String) : Value :=
  match r with
  | [] => Value.vNull
  | p :: rest => if p.1 == k then p.2 else rowGet rest k

/-- Presence of a column name in a row. -/
def rowHasKey (r : Row) (k : String) : Bool :=
  r.any (fun p => p.1 == k)

/-- Writing a cell in place when the column exists in the row. -/
def rowSetAux (r : Row) (k : String) (v : Value) : Row :=
  match r with
  | [] => []
  | p :: rest => (if p.1 == k then (k, v) else p) :: rowSetAux rest k v

/-- Writing a cell: replace the value under an existing column name, or append
the column at the end (pandas column assignment). -/
def rowSet (r : Row) (k : String) (v : Value) : Row :=
  if rowHasKey r k then rowSetAux r k v else r ++ [(k, v)]

/-- Table: ordered column names plus rows. -/
structure Table where
  cols : List String
  rows : List Row
deriving DecidableEq, Repr

/-- Typed failure surfaced by the engine in place of a result table. -/
inductive ProcError where
  | missingColumns (table : String) (required : List String)
  | unexpected (msg : String)
deriving DecidableEq, Repr

/-- Administrative columns dropped from the PMD lookup frame (app.py line 62). -/
def cols_to_drop : List String := ["Sl. No.", "DUNS"]

/-- Country codes excluded from the PMD lookup frame (app.py line 67). -/
def countries_to_exclude : List String :=
  ["CN", "ID", "TW", "HK", "JP", "KR", "MY", "PH", "SG", "TH", "VN"]

/-- Columns required in the central file (app.py line 75). -/
def required_central_cols_for_check : List String :=
  ["Valid From", "Supplier Name", "Status", "Assigned To"]

/-- Columns required in the PMD lookup file (app.py line 76). -/
def required_pmd_cols_for_check : List String :=
  ["Valid From", "Supplier Name"]

/-- Desired output columns, in order (app.py lines 141 to 145). -/
def output_required_cols : List String :=
  ["Valid From", "Bukr.", "Type", "EBSNO", "Supplier Name", "Street",
   "City", "Country", "Zip Code", "Requested By", "Pur. approver",
   "Pur. release date", "Status", "Assigned To"]

/-- Helper columns removed before the final projection (app.py lines 153 to 156). -/
def columns_to_drop_after_status_calc : List String :=
  ["comp_key", "Valid From_dt", "Valid From_dt_pmd", "Valid From_dt_central",
   "Status_central", "Assigned To_central", "final_status", "final_assigned_to"]

/-- Append a column name when it is not already present (pandas assignment of a
new column appends it at the end of the frame). -/
def appendIfAbsent (l : List String) (c : String) : List String :=
  if l.contains c then l else l ++ [c]

/-- Dropping columns from a table (pandas DataFrame.drop, app.py line 63). -/
def dropColumnsTable (t : Table) (cs : List String) : Table :=
  { cols := t.cols.filter (fun c => !cs.contains c),
    rows := t.rows.map (fun r => r.filter (fun p => !cs.contains p.1)) }

/-- Membership test of a cell value in a list of country codes
(pandas Series.isin against a list of strings): only string cells can be
members; numbers, dates and NaN are never in the list. -/
def valueIsin (v : Value) (l : List String) : Bool :=
  match v with
  | Value.vStr s => l.contains s
  | _ => false

/-- Country exclusion filter (app.py lines 68 to 70): applied only when the
frame has a Country column; rows whose Country value is in the exclusion list
are removed. -/
def countryFilterTable (t : Table) : Table :=
  if t.cols.contains "Country" then
    { cols := t.cols,
      rows := t.rows.filter (fun r => !valueIsin (rowGet r "Country") countries_to_exclude) }
  else t

/-- Two-digit zero padding of a number, as in strftime rendering. -/
def pad2 (n : Nat) : String :=
  if n < 10 then "0" ++ toString n else toString n

/-- Four-digit zero padding of a year, as in strftime rendering. -/
def pad4 (n : Nat) : String :=
  if n < 10 then "000" ++ toString n
  else if n < 100 then "00" ++ toString n
  else if n < 1000 then "0" ++ toString n
  else toString n

/-- Date parsing of a literal ISO string, an abstraction of the external date
parser: three dash-separated decimal components with a plausible month and
day.  The program only relies on parsing being deterministic and on failures
coercing to null, which this model preserves. -/
def parseYMD (s : String) : Option DateTime :=
  match s.splitOn "-" with
  | [ys, ms, ds] =>
    match ys.toNat?, ms.toNat?, ds.toNat? with
    | some y, some m, some d =>
      if 1 ≤ m ∧ m ≤ 12 ∧ 1 ≤ d ∧ d ≤ 31 then some ⟨y, m, d, 0, 0⟩ else none
    | _, _, _ => none
  | _ => none

/-- Model of pandas to_datetime with coercion of errors (app.py lines 86 to 87):
datetime cells pass through, ISO date strings parse with a midnight time
component, every other value including NaN coerces to null (NaT). -/
def to_datetime (v : Value) : Value :=
  match v with
  | Value.vDate d => Value.vDate d
  | Value.vStr s =>
    match parseYMD s with
    | some d => Value.vDate d
    | none => Value.vNull
  | _ => Value.vNull

/-- Adding the parsed date column Valid From_dt (app.py lines 86 to 87). -/
def addValidFromDt (t : Table) : Table :=
  { cols := appendIfAbsent t.cols "Valid From_dt",
    rows := t.rows.map (fun r => rowSet r "Valid From_dt" (to_datetime (rowGet r "Valid From"))) }

/-- Dropping rows with a null cell in any of the given columns
(pandas dropna with a subset, app.py lines 90 to 91). -/
def dropnaTable (t : Table) (subset : List String) : Table :=
  { cols := t.cols,
    rows := t.rows.filter (fun r => subset.all (fun c => !(rowGet r c == Value.vNull))) }

/-- Rendering of a datetime cell in the YYYY-MM-DD form
(Series.dt.strftime, app.py lines 95 to 96). -/
def strftime_ymd (v : Value) : String :=
  match v with
  | Value.vDate d => pad4 d.year ++ "-" ++ pad2 d.month ++ "-" ++ pad2 d.day
  | _ => "NaT"

/-- Rendering of a cell as a string (pandas astype str): strings unchanged,
numbers in decimal, datetimes in timestamp form, NaN as the string nan. -/
def astype_str (v : Value) : String :=
  match v with
  | Value.vStr s => s
  | Value.vNum n => toString n
  | Value.vDate d =>
    pad4 d.year ++ "-" ++ pad2 d.month ++ "-" ++ pad2 d.day ++ " " ++
      pad2 d.hour ++ ":" ++ pad2 d.minute ++ ":00"
  | Value.vNull => "nan"

/-- Composite key of one row (app.py lines 95 to 96): formatted date, a double
underscore, and the supplier name rendered as a string. -/
def makeCompKey (r : Row) : Row :=
  rowSet r "comp_key"
    (Value.vStr (strftime_ymd (rowGet r "Valid From_dt") ++ "__" ++
      astype_str (rowGet r "Supplier Name")))

/-- Adding the comp_key column to a table (app.py lines 95 to 96). -/
def addCompKey (t : Table) : Table :=
  { cols := appendIfAbsent t.cols "comp_key",
    rows := t.rows.map makeCompKey }

/-- Central frame after date normalization, dropna and key creation
(app.py lines 86, 90, 95). -/
def centralPrepared (central : Table) : Table :=
  addCompKey (dropnaTable (addValidFromDt central)
    ["Valid From_dt", "Supplier Name", "Status", "Assigned To"])

/-- PMD lookup frame after column drop, country exclusion, date normalization,
dropna and key creation (app.py lines 63, 68 to 70, 87, 91, 96). -/
def pmdPrepared (pmd : Table) : Table :=
  addCompKey (dropnaTable (addValidFromDt (countryFilterTable (dropColumnsTable pmd cols_to_drop)))
    ["Valid From_dt", "Supplier Name"])

/-- Left merge of one PMD row against the central rows on comp_key
(pd.merge with how left, app.py lines 102 to 106): one output row per central
row with an equal key, carrying the central Status and Assigned To under
suffixed names; a single row with null fill when no central row matches. -/
def mergeOne (centralRows : List Row) (p : Row) : List Row :=
  let ms := centralRows.filter (fun c => rowGet c "comp_key" == rowGet p "comp_key")
  if ms.isEmpty then
    [rowSet (rowSet p "Status_central" Value.vNull) "Assigned To_central" Value.vNull]
  else
    ms.map (fun c =>
      rowSet (rowSet p "Status_central" (rowGet c "Status")) "Assigned To_central"
        (rowGet c "Assigned To"))

/-- Lowercasing of an ASCII letter; other characters are unchanged.  Statuses
compared by the program are plain ASCII words, for which this matches the
library lowercase used by the source. -/
def charLower (c : Char) : Char :=
  if 'A' ≤ c ∧ c ≤ 'Z' then Char.ofNat (c.toNat + 32) else c

/-- Lowercasing of a string, character by character. -/
def strLower (s : String) : String :=
  String.mk (s.data.map charLower)

/-- Case-insensitive comparison of a status cell with the literal approved
(app.py line 118): true only for string cells. -/
def approvedCI (v : Value) : Bool :=
  match v with
  | Value.vStr s => strLower s == "approved"
  | _ => false

/-- Direct translation of determine_final_output_details (app.py lines 110 to
123): null central status means no match, giving New; a string status equal to
approved case-insensitively gives the ignored pair of nulls; any other status
gives Hold with the central Assigned To. -/
def determine_final_output_details (r : Row) : Value × Value :=
  if rowGet r "Status_central" == Value.vNull then
    (Value.vStr "New", Value.vNull)
  else if approvedCI (rowGet r "Status_central") then
    (Value.vNull, Value.vNull)
  else
    (Value.vStr "Hold", rowGet r "Assigned To_central")

/-- Attaching the classification result as the final_status and
final_assigned_to columns (app.py lines 126 to 128). -/
def applyDetails (r : Row) : Row :=
  rowSet (rowSet r "final_status" (determine_final_output_details r).1)
    "final_assigned_to" (determine_final_output_details r).2

/-- Row retention test (app.py line 132): keep rows whose final_status is not
null. -/
def keepRow (r : Row) : Bool :=
  !(rowGet r "final_status" == Value.vNull)

/-- Copying final_status and final_assigned_to into the Status and Assigned To
columns (app.py lines 135 to 136). -/
def assignStatusCols (r : Row) : Row :=
  rowSet (rowSet r "Status" (rowGet r "final_status")) "Assigned To"
    (rowGet r "final_assigned_to")

/-- Rendering of a datetime cell in the twelve-hour display form
YYYY-MM-DD hh:mm AM or PM (app.py line 150). -/
def strftime_ampm (v : Value) : String :=
  match v with
  | Value.vDate d =>
    pad4 d.year ++ "-" ++ pad2 d.month ++ "-" ++ pad2 d.day ++ " " ++
      pad2 (if d.hour % 12 == 0 then 12 else d.hour % 12) ++ ":" ++ pad2 d.minute ++ " " ++
      (if d.hour < 12 then "AM" else "PM")
  | _ => "NaT"

/-- Overwriting Valid From with the display rendering of Valid From_dt
(app.py lines 149 to 150). -/
def formatValidFrom (r : Row) : Row :=
  rowSet r "Valid From" (Value.vStr (strftime_ampm (rowGet r "Valid From_dt")))

/-- Removing the helper columns from a row (app.py lines 158 to 160). -/
def dropHelperRow (r : Row) : Row :=
  r.filter (fun p => !columns_to_drop_after_status_calc.contains p.1)

/-- Projection of a row onto the selected output columns, in their order
(app.py line 163). -/
def projectRow (outCols : List String) (r : Row) : Row :=
  outCols.map (fun c => (c, rowGet r c))

/-- Column list of the classified frame before the final projection: the
prepared PMD columns, the two merged central columns, the classification
columns, the assigned Status and Assigned To columns, the conditionally
re-assigned Valid From column, with the helper columns then removed. -/
def finalFrameCols (pmdPreparedCols : List String) : List String :=
  let c1 := pmdPreparedCols ++ ["Status_central", "Assigned To_central"]
  let c2 := appendIfAbsent (appendIfAbsent c1 "final_status") "final_assigned_to"
  let c3 := appendIfAbsent (appendIfAbsent c2 "Status") "Assigned To"
  let c4 := if c3.contains "Valid From_dt" then appendIfAbsent c3 "Valid From" else c3
  c4.filter (fun c => !columns_to_drop_after_status_calc.contains c)

/-- Output columns of the pipeline for a given PMD input: the required output
columns restricted to those available in the classified frame (app.py line 163). -/
def pipelineOutCols (pmd : Table) : List String :=
  output_required_cols.filter (fun c => (finalFrameCols (pmdPrepared pmd).cols).contains c)

/-- Full post-merge processing of the merge partners of one PMD row:
classification, retention filter, status assignment, date display formatting,
helper-column removal and projection. -/
def finishRow (centralRows : List Row) (outCols : List String) (p : Row) : List Row :=
  ((((((mergeOne centralRows p).map applyDetails).filter keepRow).map
    assignStatusCols).map formatValidFrom).map dropHelperRow).map (projectRow outCols)

/-- Output rows contributed by one PMD candidate row: the processed merge
partners of that row.  The output table is the concatenation of these
contributions over the prepared PMD rows. -/
def rowContribution (central pmd : Table) (p : Row) : List Row :=
  finishRow (centralPrepared central).rows (pipelineOutCols pmd) p

/-- Translation of process_files (app.py lines 60 to 176), from the point where
the two frames have been read, to the final output frame.  The two
required-column checks reject a frame as the source does, naming the frame and
its required list.  When the merged frame is empty, the two-column assignment
of the apply result raises a ValueError in pandas (apply on an empty frame
returns a copy of the frame, whose column count differs from two), caught by
the generic handler; this surfaces as the unexpected failure below. -/
def process_files (central pmd : Table) : Except ProcError Table :=
  let pmd2 := countryFilterTable (dropColumnsTable pmd cols_to_drop)
  if !required_central_cols_for_check.all (fun c => central.cols.contains c) then
    Except.error (ProcError.missingColumns "Central File" required_central_cols_for_check)
  else if !required_pmd_cols_for_check.all (fun c => pmd2.cols.contains c) then
    Except.error (ProcError.missingColumns "PMD Lookup Data File" required_pmd_cols_for_check)
  else
    let central3 := centralPrepared central
    let pmd5 := pmdPrepared pmd
    let merged := pmd5.rows.flatMap (mergeOne central3.rows)
    if merged.isEmpty then
      Except.error (ProcError.unexpected "Columns must be same length as key")
    else
      let rows1 := (merged.map applyDetails).filter keepRow
      let rows2 := rows1.map assignStatusCols
      let c3 := appendIfAbsent (appendIfAbsent (appendIfAbsent (appendIfAbsent
        (pmd5.cols ++ ["Status_central", "Assigned To_central"]) "final_status")
        "final_assigned_to") "Status") "Assigned To"
      let rows3 := if c3.contains "Valid From_dt" then rows2.map formatValidFrom else rows2
      let rows4 := rows3.map dropHelperRow
      let outCols := output_required_cols.filter (fun c => (finalFrameCols pmd5.cols).contains c)
      Except.ok { cols := outCols, rows := rows4.map (projectRow outCols) }


/-! ### Concrete example tables used by witnesses and counterexamples -/

/-- Example date used by the concrete tables. -/
def dEx : DateTime := ⟨2024, 1, 1, 0, 0⟩

/-- Central file with one pending Acme Corp row assigned to Alice. -/
def centralEx : Table :=
  ⟨["Valid From", "Supplier Name", "Status", "Assigned To"],
   [[("Valid From", Value.vDate dEx), ("Supplier Name", Value.vStr "Acme Corp"),
     ("Status", Value.vStr "Pending"), ("Assigned To", Value.vStr "Alice")]]⟩

/-- PMD lookup file with one matching Acme Corp row from the US. -/
def pmdEx : Table :=
  ⟨["Valid From", "Supplier Name", "Country"],
   [[("Valid From", Value.vDate dEx), ("Supplier Name", Value.vStr "Acme Corp"),
     ("Country", Value.vStr "US")]]⟩

/-- The prepared form of the pmdEx candidate row. -/
def pEx : Row :=
  [("Valid From", Value.vDate dEx), ("Supplier Name", Value.vStr "Acme Corp"),
   ("Country", Value.vStr "US"), ("Valid From_dt", Value.vDate dEx),
   ("comp_key", Value.vStr "2024-01-01__Acme Corp")]

/-- The prepared form of the centralEx reference row. -/
def cEx : Row :=
  [("Valid From", Value.vDate dEx), ("Supplier Name", Value.vStr "Acme Corp"),
   ("Status", Value.vStr "Pending"), ("Assigned To", Value.vStr "Alice"),
   ("Valid From_dt", Value.vDate dEx), ("comp_key", Value.vStr "2024-01-01__Acme Corp")]

/-- Output of the run on centralEx and pmdEx. -/
def outEx : Table :=
  ⟨["Valid From", "Supplier Name", "Country", "Status", "Assigned To"],
   [[("Valid From", Value.vStr "2024-01-01 12:00 AM"),
     ("Supplier Name", Value.vStr "Acme Corp"),
     ("Country", Value.vStr "US"),
     ("Status", Value.vStr "Hold"),
     ("Assigned To", Value.vStr "Alice")]]⟩

/-- Central file with a duplicated composite key, both rows non-approved. -/
def c1central : Table :=
  ⟨["Valid From", "Supplier Name", "Status", "Assigned To"],
   [[("Valid From", Value.vDate dEx), ("Supplier Name", Value.vStr "Acme Corp"),
     ("Status", Value.vStr "Pending"), ("Assigned To", Value.vStr "Alice")],
    [("Valid From", Value.vDate dEx), ("Supplier Name", Value.vStr "Acme Corp"),
     ("Status", Value.vStr "Review"), ("Assigned To", Value.vStr "Bob")]]⟩

/-- PMD lookup file whose supplier names differ only in surrounding
whitespace, plus an empty supplier name. -/
def c3pmd : Table :=
  ⟨["Valid From", "Supplier Name"],
   [[("Valid From", Value.vDate dEx), ("Supplier Name", Value.vStr " Acme")],
    [("Valid From", Value.vDate dEx), ("Supplier Name", Value.vStr "Acme")],
    [("Valid From", Value.vDate dEx), ("Supplier Name", Value.vStr "")]]⟩

/-- Central file lacking the Assigned To column but holding every column the
specification declares required. -/
def c4central : Table :=
  ⟨["Valid From", "Supplier Name", "Status"],
   [[("Valid From", Value.vDate dEx), ("Supplier Name", Value.vStr "Acme Corp"),
     ("Status", Value.vStr "Pending")]]⟩

/-- Central file with a duplicated composite key: one approved row and one
pending row. -/
def c5central : Table :=
  ⟨["Valid From", "Supplier Name", "Status", "Assigned To"],
   [[("Valid From", Value.vDate dEx), ("Supplier Name", Value.vStr "Acme Corp"),
     ("Status", Value.vStr "Approved"), ("Assigned To", Value.vStr "Alice")],
    [("Valid From", Value.vDate dEx), ("Supplier Name", Value.vStr "Acme Corp"),
     ("Status", Value.vStr "Pending"), ("Assigned To", Value.vStr "Bob")]]⟩

/-- Central file whose only row is approved. -/
def c5wcentral : Table :=
  ⟨["Valid From", "Supplier Name", "Status", "Assigned To"],
   [[("Valid From", Value.vDate dEx), ("Supplier Name", Value.vStr "Acme Corp"),
     ("Status", Value.vStr "Approved"), ("Assigned To", Value.vStr "Alice")]]⟩

/-- Empty-row output of the run on c5wcentral and pmdEx. -/
def c5wout : Table :=
  ⟨["Valid From", "Supplier Name", "Country", "Status", "Assigned To"], []⟩

/-- Central file whose only row concerns an unrelated supplier. -/
def c6central : Table :=
  ⟨["Valid From", "Supplier Name", "Status", "Assigned To"],
   [[("Valid From", Value.vDate dEx), ("Supplier Name", Value.vStr "Zeta Corp"),
     ("Status", Value.vStr "Pending"), ("Assigned To", Value.vStr "Alice")]]⟩

/-- Output of the run on c6central and pmdEx: an unmatched candidate. -/
def c6out : Table :=
  ⟨["Valid From", "Supplier Name", "Country", "Status", "Assigned To"],
   [[("Valid From", Value.vStr "2024-01-01 12:00 AM"),
     ("Supplier Name", Value.vStr "Acme Corp"),
     ("Country", Value.vStr "US"),
     ("Status", Value.vStr "New"),
     ("Assigned To", Value.vNull)]]⟩

/-- PMD lookup file whose only row has an excluded country, so every candidate
row is dropped before the merge. -/
def c8pmd : Table :=
  ⟨["Valid From", "Supplier Name", "Country"],
   [[("Valid From", Value.vDate dEx), ("Supplier Name", Value.vStr "Acme Corp"),
     ("Country", Value.vStr "CN")]]⟩

/-- Central file whose matching row has a numeric, non-string status. -/
def c10central : Table :=
  ⟨["Valid From", "Supplier Name", "Status", "Assigned To"],
   [[("Valid From", Value.vDate dEx), ("Supplier Name", Value.vStr "Acme Corp"),
     ("Status", Value.vNum 5), ("Assigned To", Value.vStr "Carol")]]⟩

/-- The prepared form of the c10central reference row. -/
def c10cEx : Row :=
  [("Valid From", Value.vDate dEx), ("Supplier Name", Value.vStr "Acme Corp"),
   ("Status", Value.vNum 5), ("Assigned To", Value.vStr "Carol"),
   ("Valid From_dt", Value.vDate dEx), ("comp_key", Value.vStr "2024-01-01__Acme Corp")]

/-- Output of the run on c10central and pmdEx. -/
def c10out : Table :=
  ⟨["Valid From", "Supplier Name", "Country", "Status", "Assigned To"],
   [[("Valid From", Value.vStr "2024-01-01 12:00 AM"),
     ("Supplier Name", Value.vStr "Acme Corp"),
     ("Country", Value.vStr "US"),
     ("Status", Value.vStr "Hold"),
     ("Assigned To", Value.vStr "Carol")]]⟩

/-- A candidate table with no Country column. -/
def noCountryTable : Table :=
  ⟨["Valid From", "Supplier Name"],
   [[("Valid From", Value.vDate dEx), ("Supplier Name", Value.vStr "Acme Corp")]]⟩

/-- String test of a cell value, mirroring the isinstance check of the
classifier (app.py line 118). -/
def valueIsString (v : Value) : Bool :=
  match v with
  | Value.vStr _ => true
  | _ => false

/-- Normalized row whose supplier name carries a leading space. -/
def r1W : Row := [("Valid From_dt", Value.vDate dEx), ("Supplier Name", Value.vStr " Acme")]

/-- Normalized row with the same date and the trimmed supplier name. -/
def r2W : Row := [("Valid From_dt", Value.vDate dEx), ("Supplier Name", Value.vStr "Acme")]

/-- Central file whose only row has a non-approved status but a null
Assigned To cell. -/
def c2central : Table :=
  ⟨["Valid From", "Supplier Name", "Status", "Assigned To"],
   [[("Valid From", Value.vDate dEx), ("Supplier Name", Value.vStr "Acme Corp"),
     ("Status", Value.vStr "Pending"), ("Assigned To", Value.vNull)]]⟩

/-- The c2central reference row after date parsing, before dropna: its
composite key matches the pmdEx candidate, yet dropna removes it because its
Assigned To is null. -/
def c2cRaw : Row :=
  [("Valid From", Value.vDate dEx), ("Supplier Name", Value.vStr "Acme Corp"),
   ("Status", Value.vStr "Pending"), ("Assigned To", Value.vNull),
   ("Valid From_dt", Value.vDate dEx)]

/-- Output of the run on c2central and pmdEx: the candidate is classified New,
not Hold, because its only matching reference row was dropped for lacking an
assignee. -/
def c2out : Table :=
  ⟨["Valid From", "Supplier Name", "Country", "Status", "Assigned To"],
   [[("Valid From", Value.vStr "2024-01-01 12:00 AM"),
     ("Supplier Name", Value.vStr "Acme Corp"),
     ("Country", Value.vStr "US"),
     ("Status", Value.vStr "New"),
     ("Assigned To", Value.vNull)]]⟩

/-! ### Association-list lemmas -/

theorem rowGet_cons (p : String × Value) (r : Row) (k : String) :
    rowGet (p :: r) k = if p.1 == k then p.2 else rowGet r k := rfl

theorem rowGet_append_not_found (r₁ r₂ : Row) (k : String)
    (h : rowHasKey r₁ k = false) :
    rowGet (r₁ ++ r₂) k = rowGet r₂ k := by
  induction r₁ with
  | nil => rfl
  | cons p rest ih =>
    simp only [rowHasKey, List.any_cons, Bool.or_eq_false_iff] at h
    simp only [List.cons_append, rowGet_cons, h.1, Bool.false_eq_true, if_false]
    exact ih (by simp [rowHasKey, h.2])

theorem rowGet_rowSetAux_self (r : Row) (k : String) (v : Value)
    (h : rowHasKey r k = true) :
    rowGet (rowSetAux r k v) k = v := by
  induction r with
  | nil => simp [rowHasKey] at h
  | cons p rest ih =>
    cases hp : p.1 == k with
    | true =>
      simp only [rowSetAux, hp, if_true, rowGet_cons]
      simp
    | false =>
      simp only [rowHasKey, List.any_cons, hp, Bool.false_or] at h
      simp only [rowSetAux, hp, Bool.false_eq_true, if_false, rowGet_cons, hp]
      exact ih h

theorem rowGet_rowSet_self (r : Row) (k : String) (v : Value) :
    rowGet (rowSet r k v) k = v := by
  unfold rowSet
  cases h : rowHasKey r k with
  | true => simp only [if_true]; exact rowGet_rowSetAux_self r k v h
  | false =>
    simp only [Bool.false_eq_true, if_false]
    rw [rowGet_append_not_found r _ k h]
    simp [rowGet_cons]

theorem rowGet_rowSetAux_ne (r : Row) (k k' : String) (v : Value) (h : k' ≠ k) :
    rowGet (rowSetAux r k v) k' = rowGet r k' := by
  have hkk : (k == k') = false := by
    simp only [beq_eq_false_iff_ne, ne_eq]
    exact fun hh => h hh.symm
  induction r with
  | nil => rfl
  | cons p rest ih =>
    cases hp : p.1 == k with
    | true =>
      have hp1 : p.1 = k := by simpa using hp
      have hpk : (p.1 == k') = false := by rw [hp1]; exact hkk
      simp only [rowSetAux, hp, if_true, rowGet_cons, hkk, hpk, Bool.false_eq_true, if_false]
      exact ih
    | false =>
      simp only [rowSetAux, hp, Bool.false_eq_true, if_false, rowGet_cons]
      cases hpk : p.1 == k' with
      | true => simp
      | false => simp only [Bool.false_eq_true, if_false]; exact ih

theorem rowGet_rowSet_ne (r : Row) (k k' : String) (v : Value) (h : k' ≠ k) :
    rowGet (rowSet r k v) k' = rowGet r k' := by
  unfold rowSet
  cases hk : rowHasKey r k with
  | true => simp only [if_true]; exact rowGet_rowSetAux_ne r k k' v h
  | false =>
    simp only [Bool.false_eq_true, if_false]
    induction r with
    | nil =>
      have hkk : (k == k') = false := by
        simp only [beq_eq_false_iff_ne, ne_eq]
        exact fun hh => h hh.symm
      simp [rowGet_cons, hkk]
    | cons p rest ih =>
      simp only [rowHasKey, List.any_cons, Bool.or_eq_false_iff] at hk
      simp only [List.cons_append, rowGet_cons]
      cases hpk : p.1 == k' with
      | true => simp
      | false =>
        simp only [Bool.false_eq_true, if_false]
        exact ih (by simp [rowHasKey, hk.2])

theorem rowGet_filter_keys (r : Row) (ks : List String) (k : String)
    (h : ks.contains k = false) :
    rowGet (r.filter (fun p => !ks.contains p.1)) k = rowGet r k := by
  induction r with
  | nil => rfl
  | cons p rest ih =>
    cases hp : ks.contains p.1 with
    | true =>
      have hpk : (p.1 == k) = false := by
        cases hq : p.1 == k with
        | false => rfl
        | true =>
          have hh : p.1 = k := by simpa using hq
          rw [hh, h] at hp
          cases hp
      simp only [List.filter_cons, hp, Bool.not_true, Bool.false_eq_true, if_false,
        rowGet_cons, hpk]
      exact ih
    | false =>
      simp only [List.filter_cons, hp, Bool.not_false, if_true, rowGet_cons]
      cases hpk : p.1 == k with
      | true => simp
      | false => simp only [Bool.false_eq_true, if_false]; exact ih

theorem rowGet_projectRow (outCols : List String) (r : Row) (k : String) :
    rowGet (projectRow outCols r) k =
      if outCols.contains k then rowGet r k else Value.vNull := by
  induction outCols with
  | nil => rfl
  | cons c cs ih =>
    cases hc : c == k with
    | true =>
      have : c = k := by simpa using hc
      subst this
      simp [projectRow, rowGet_cons, List.contains_cons]
    | false =>
      have hkc : (k == c) = false := by
        simp only [beq_eq_false_iff_ne, ne_eq] at hc ⊢
        exact fun hh => hc hh.symm
      simp only [projectRow, List.map_cons, rowGet_cons, hc, Bool.false_eq_true, if_false,
        List.contains_cons, hkc, Bool.false_or]
      exact ih

/-! ### Column-list contains lemmas -/

theorem contains_append_strings (l₁ l₂ : List String) (a : String) :
    (l₁ ++ l₂).contains a = (l₁.contains a || l₂.contains a) := by
  simp [List.contains_eq_any_beq, List.any_append]

theorem contains_appendIfAbsent (l : List String) (c₀ c : String) :
    (appendIfAbsent l c₀).contains c = (l.contains c || c == c₀) := by
  unfold appendIfAbsent
  cases h : l.contains c₀ with
  | true =>
    simp only [if_true]
    cases hc : c == c₀ with
    | true =>
      have hcc : c = c₀ := by simpa using hc
      subst hcc
      simp only [hc, Bool.or_true]
      exact h.symm ▸ rfl
    | false => simp
  | false =>
    simp only [Bool.false_eq_true, if_false, contains_append_strings]
    congr 1
    simp only [List.contains_cons]
    by_cases hc : c = c₀ <;> simp [hc]

theorem contains_filter_strings (l : List String) (q : String → Bool) (c : String) :
    (l.filter q).contains c = (l.contains c && q c) := by
  induction l with
  | nil => rfl
  | cons a rest ih =>
    by_cases hca : c = a
    · subst hca
      cases hq : q c with
      | true => simp [List.filter_cons, hq, List.contains_cons, ih]
      | false => simp [List.filter_cons, hq, List.contains_cons, ih]
    · cases hq : q a with
      | true => simp [List.filter_cons, hq, List.contains_cons, hca, ih]
      | false => simp [List.filter_cons, hq, List.contains_cons, hca, ih]

/-! ### Stage lemmas -/

theorem countryFilterTable_cols (t : Table) : (countryFilterTable t).cols = t.cols := by
  unfold countryFilterTable
  split <;> rfl

theorem pmdPrepared_cols (pmd : Table) :
    (pmdPrepared pmd).cols =
      appendIfAbsent (appendIfAbsent ((dropColumnsTable pmd cols_to_drop).cols)
        "Valid From_dt") "comp_key" := by
  unfold pmdPrepared addCompKey dropnaTable addValidFromDt
  simp [countryFilterTable_cols]

theorem pmdPrepared_cols_contains_vfdt (pmd : Table) :
    (pmdPrepared pmd).cols.contains "Valid From_dt" = true := by
  rw [pmdPrepared_cols, contains_appendIfAbsent, contains_appendIfAbsent]
  simp

theorem c3cols_contains_vfdt (l : List String) (h : l.contains "Valid From_dt" = true) :
    (appendIfAbsent (appendIfAbsent (appendIfAbsent (appendIfAbsent
      (l ++ ["Status_central", "Assigned To_central"]) "final_status")
      "final_assigned_to") "Status") "Assigned To").contains "Valid From_dt" = true := by
  rw [contains_appendIfAbsent, contains_appendIfAbsent, contains_appendIfAbsent,
    contains_appendIfAbsent, contains_append_strings, h]
  simp

theorem finalFrameCols_contains_status (l : List String) :
    (finalFrameCols l).contains "Status" = true := by
  have hg : columns_to_drop_after_status_calc.contains "Status" = false := by rfl
  simp only [finalFrameCols]
  rw [contains_filter_strings]
  split <;>
    simp only [contains_appendIfAbsent, contains_append_strings, hg, beq_self_eq_true,
      Bool.or_true, Bool.true_or, Bool.not_false, Bool.and_true]

theorem finalFrameCols_contains_assigned (l : List String) :
    (finalFrameCols l).contains "Assigned To" = true := by
  have hg : columns_to_drop_after_status_calc.contains "Assigned To" = false := by rfl
  simp only [finalFrameCols]
  rw [contains_filter_strings]
  split <;>
    simp only [contains_appendIfAbsent, contains_append_strings, hg, beq_self_eq_true,
      Bool.or_true, Bool.true_or, Bool.not_false, Bool.and_true]

theorem pipelineOutCols_contains_status (pmd : Table) :
    (pipelineOutCols pmd).contains "Status" = true := by
  unfold pipelineOutCols
  rw [contains_filter_strings, finalFrameCols_contains_status]
  simp
  decide

theorem pipelineOutCols_contains_assigned (pmd : Table) :
    (pipelineOutCols pmd).contains "Assigned To" = true := by
  unfold pipelineOutCols
  rw [contains_filter_strings, finalFrameCols_contains_assigned]
  simp
  decide

set_option maxHeartbeats 2000000 in
/-- Structure of a successful run: both column checks passed, the output
columns are the selected ones, and the output rows are the concatenated
contributions of the prepared PMD rows. -/
theorem process_files_ok_parts (central pmd t : Table)
    (h : process_files central pmd = Except.ok t) :
    required_central_cols_for_check.all (fun c => central.cols.contains c) = true ∧
    required_pmd_cols_for_check.all
      (fun c => (countryFilterTable (dropColumnsTable pmd cols_to_drop)).cols.contains c) = true ∧
    t.cols = pipelineOutCols pmd ∧
    t.rows = (pmdPrepared pmd).rows.flatMap (rowContribution central pmd) := by
  unfold process_files at h
  dsimp only [] at h
  split at h
  · exact absurd h (by simp)
  · split at h
    · exact absurd h (by simp)
    · split at h
      · exact absurd h (by simp)
      · rename_i h1 h2 h3
        have hc1 : required_central_cols_for_check.all
            (fun c => central.cols.contains c) = true := by
          revert h1
          cases required_central_cols_for_check.all (fun c => central.cols.contains c) <;> simp
        have hc2 : required_pmd_cols_for_check.all
            (fun c => (countryFilterTable (dropColumnsTable pmd cols_to_drop)).cols.contains c)
            = true := by
          revert h2
          cases required_pmd_cols_for_check.all
            (fun c => (countryFilterTable (dropColumnsTable pmd cols_to_drop)).cols.contains c)
            <;> simp
        injection h with ht
        subst ht
        refine ⟨hc1, hc2, rfl, ?_⟩
        have hvf : (appendIfAbsent (appendIfAbsent (appendIfAbsent (appendIfAbsent
            ((pmdPrepared pmd).cols ++ ["Status_central", "Assigned To_central"]) "final_status")
            "final_assigned_to") "Status") "Assigned To").contains "Valid From_dt" = true :=
          c3cols_contains_vfdt (pmdPrepared pmd).cols (pmdPrepared_cols_contains_vfdt pmd)
        rw [if_pos hvf]
        simp only [List.map_flatMap, List.filter_flatMap]
        rfl

/-- Rows surviving the central preparation always carry a non-null Status
(they passed the dropna step, and key creation leaves Status untouched). -/
theorem centralPrepared_status_ne (central : Table) (c : Row)
    (hc : c ∈ (centralPrepared central).rows) :
    rowGet c "Status" ≠ Value.vNull := by
  unfold centralPrepared addCompKey dropnaTable at hc
  simp only [List.mem_map] at hc
  obtain ⟨c0, hc0, hkey⟩ := hc
  rw [List.mem_filter] at hc0
  have hall := hc0.2
  simp only [List.all_cons, List.all_nil, Bool.and_eq_true, Bool.and_true] at hall
  have hst : (rowGet c0 "Status" == Value.vNull) = false := by
    have := hall.2.2.1
    cases hb : rowGet c0 "Status" == Value.vNull with
    | false => rfl
    | true => rw [hb] at this; cases this
  subst hkey
  unfold makeCompKey
  rw [rowGet_rowSet_ne _ _ _ _ (by decide)]
  exact fun hh => by rw [hh] at hst; simp at hst

/-- Similarly, surviving central rows carry a non-null Assigned To. -/
theorem centralPrepared_assigned_ne (central : Table) (c : Row)
    (hc : c ∈ (centralPrepared central).rows) :
    rowGet c "Assigned To" ≠ Value.vNull := by
  unfold centralPrepared addCompKey dropnaTable at hc
  simp only [List.mem_map] at hc
  obtain ⟨c0, hc0, hkey⟩ := hc
  rw [List.mem_filter] at hc0
  have hall := hc0.2
  simp only [List.all_cons, List.all_nil, Bool.and_eq_true, Bool.and_true] at hall
  have hst : (rowGet c0 "Assigned To" == Value.vNull) = false := by
    have := hall.2.2.2
    cases hb : rowGet c0 "Assigned To" == Value.vNull with
    | false => rfl
    | true => rw [hb] at this; cases this
  subst hkey
  unfold makeCompKey
  rw [rowGet_rowSet_ne _ _ _ _ (by decide)]
  exact fun hh => by rw [hh] at hst; simp at hst

/-- Membership in the processed contribution of one candidate row, given a
merge partner whose classified row is retained. -/
theorem mem_finishRow_of (cr : List Row) (outCols : List String) (p m : Row)
    (hm : m ∈ mergeOne cr p) (hk : keepRow (applyDetails m) = true) :
    projectRow outCols (dropHelperRow (formatValidFrom (assignStatusCols (applyDetails m))))
      ∈ finishRow cr outCols p := by
  unfold finishRow
  refine List.mem_map.mpr ⟨_, ?_, rfl⟩
  refine List.mem_map.mpr ⟨_, ?_, rfl⟩
  refine List.mem_map.mpr ⟨_, ?_, rfl⟩
  refine List.mem_map.mpr ⟨_, ?_, rfl⟩
  exact List.mem_filter.mpr ⟨List.mem_map.mpr ⟨m, hm, rfl⟩, hk⟩

/-- Helper: a candidate row with a matching, non-approved central partner
contributes an output row labelled Hold carrying the central Assigned To. -/
theorem hold_mem_finishRow (cr : List Row) (outCols : List String) (p c : Row)
    (hc : c ∈ cr)
    (hkey : rowGet c "comp_key" = rowGet p "comp_key")
    (hnn : rowGet c "Status" ≠ Value.vNull)
    (happ : approvedCI (rowGet c "Status") = false)
    (hst : outCols.contains "Status" = true)
    (has : outCols.contains "Assigned To" = true) :
    ∃ o ∈ finishRow cr outCols p,
      rowGet o "Status" = Value.vStr "Hold" ∧
      rowGet o "Assigned To" = rowGet c "Assigned To" := by
  have hb : (rowGet c "Status" == Value.vNull) = false := by
    cases hq : rowGet c "Status" == Value.vNull with
    | false => rfl
    | true => exact absurd (by simpa using hq) hnn
  have hmc : rowSet (rowSet p "Status_central" (rowGet c "Status")) "Assigned To_central"
      (rowGet c "Assigned To") ∈ mergeOne cr p := by
    unfold mergeOne
    have hcm : c ∈ cr.filter (fun c' => rowGet c' "comp_key" == rowGet p "comp_key") := by
      refine List.mem_filter.mpr ⟨hc, ?_⟩
      rw [hkey]
      exact beq_self_eq_true _
    have hne : (cr.filter (fun c' => rowGet c' "comp_key" == rowGet p "comp_key")).isEmpty
        = false := by
      cases hms : cr.filter (fun c' => rowGet c' "comp_key" == rowGet p "comp_key") with
      | nil => rw [hms] at hcm; cases hcm
      | cons a l => rfl
    rw [if_neg (by rw [hne]; exact fun hh => Bool.noConfusion hh)]
    exact List.mem_map.mpr ⟨c, hcm, rfl⟩
  have hmcS : rowGet (rowSet (rowSet p "Status_central" (rowGet c "Status")) "Assigned To_central"
      (rowGet c "Assigned To")) "Status_central" = rowGet c "Status" := by
    rw [rowGet_rowSet_ne _ _ _ _ (by decide), rowGet_rowSet_self]
  have hmcA : rowGet (rowSet (rowSet p "Status_central" (rowGet c "Status")) "Assigned To_central"
      (rowGet c "Assigned To")) "Assigned To_central" = rowGet c "Assigned To" :=
    rowGet_rowSet_self _ _ _
  have hdet : determine_final_output_details (rowSet (rowSet p "Status_central"
      (rowGet c "Status")) "Assigned To_central" (rowGet c "Assigned To"))
      = (Value.vStr "Hold", rowGet c "Assigned To") := by
    unfold determine_final_output_details
    rw [hmcS, hmcA, hb, happ]
    simp
  have had_fs : rowGet (applyDetails (rowSet (rowSet p "Status_central" (rowGet c "Status"))
      "Assigned To_central" (rowGet c "Assigned To"))) "final_status" = Value.vStr "Hold" := by
    unfold applyDetails
    rw [hdet, rowGet_rowSet_ne _ _ _ _ (by decide), rowGet_rowSet_self]
  have had_fa : rowGet (applyDetails (rowSet (rowSet p "Status_central" (rowGet c "Status"))
      "Assigned To_central" (rowGet c "Assigned To"))) "final_assigned_to"
      = rowGet c "Assigned To" := by
    unfold applyDetails
    rw [hdet, rowGet_rowSet_self]
  have hkeep : keepRow (applyDetails (rowSet (rowSet p "Status_central" (rowGet c "Status"))
      "Assigned To_central" (rowGet c "Assigned To"))) = true := by
    unfold keepRow
    rw [had_fs]
    rfl
  refine ⟨_, mem_finishRow_of cr outCols p _ hmc hkeep, ?_, ?_⟩
  · rw [rowGet_projectRow, hst, if_pos rfl]
    unfold dropHelperRow
    rw [rowGet_filter_keys _ columns_to_drop_after_status_calc _ (by rfl)]
    unfold formatValidFrom
    rw [rowGet_rowSet_ne _ _ _ _ (by decide)]
    unfold assignStatusCols
    rw [rowGet_rowSet_ne _ _ _ _ (by decide), rowGet_rowSet_self, had_fs]
  · rw [rowGet_projectRow, has, if_pos rfl]
    unfold dropHelperRow
    rw [rowGet_filter_keys _ columns_to_drop_after_status_calc _ (by rfl)]
    unfold formatValidFrom
    rw [rowGet_rowSet_ne _ _ _ _ (by decide)]
    unfold assignStatusCols
    rw [rowGet_rowSet_self, had_fa]

/-- Helper: a candidate row with no matching central partner contributes an
output row labelled New with an empty Assigned To, carrying its own supplier
name through when that column is selected. -/
theorem new_mem_finishRow (cr : List Row) (outCols : List String) (p : Row)
    (hnomatch : ∀ c ∈ cr, (rowGet c "comp_key" == rowGet p "comp_key") = false)
    (hst : outCols.contains "Status" = true)
    (has : outCols.contains "Assigned To" = true) :
    ∃ o ∈ finishRow cr outCols p,
      rowGet o "Status" = Value.vStr "New" ∧
      rowGet o "Assigned To" = Value.vNull ∧
      (outCols.contains "Supplier Name" = true →
        rowGet o "Supplier Name" = rowGet p "Supplier Name") := by
  have hnil : cr.filter (fun c' => rowGet c' "comp_key" == rowGet p "comp_key") = [] := by
    rw [List.filter_eq_nil_iff]
    intro c hcmem
    rw [hnomatch c hcmem]
    exact fun hh => Bool.noConfusion hh
  have hmc : rowSet (rowSet p "Status_central" Value.vNull) "Assigned To_central" Value.vNull
      ∈ mergeOne cr p := by
    unfold mergeOne
    rw [hnil]
    simp
  have hmcS : rowGet (rowSet (rowSet p "Status_central" Value.vNull) "Assigned To_central"
      Value.vNull) "Status_central" = Value.vNull := by
    rw [rowGet_rowSet_ne _ _ _ _ (by decide), rowGet_rowSet_self]
  have hdet : determine_final_output_details (rowSet (rowSet p "Status_central" Value.vNull)
      "Assigned To_central" Value.vNull) = (Value.vStr "New", Value.vNull) := by
    unfold determine_final_output_details
    rw [hmcS]
    simp
  have had_fs : rowGet (applyDetails (rowSet (rowSet p "Status_central" Value.vNull)
      "Assigned To_central" Value.vNull)) "final_status" = Value.vStr "New" := by
    unfold applyDetails
    rw [hdet, rowGet_rowSet_ne _ _ _ _ (by decide), rowGet_rowSet_self]
  have had_fa : rowGet (applyDetails (rowSet (rowSet p "Status_central" Value.vNull)
      "Assigned To_central" Value.vNull)) "final_assigned_to" = Value.vNull := by
    unfold applyDetails
    rw [hdet, rowGet_rowSet_self]
  have hkeep : keepRow (applyDetails (rowSet (rowSet p "Status_central" Value.vNull)
      "Assigned To_central" Value.vNull)) = true := by
    unfold keepRow
    rw [had_fs]
    rfl
  refine ⟨_, mem_finishRow_of cr outCols p _ hmc hkeep, ?_, ?_, ?_⟩
  · rw [rowGet_projectRow, hst, if_pos rfl]
    unfold dropHelperRow
    rw [rowGet_filter_keys _ columns_to_drop_after_status_calc _ (by rfl)]
    unfold formatValidFrom
    rw [rowGet_rowSet_ne _ _ _ _ (by decide)]
    unfold assignStatusCols
    rw [rowGet_rowSet_ne _ _ _ _ (by decide), rowGet_rowSet_self, had_fs]
  · rw [rowGet_projectRow, has, if_pos rfl]
    unfold dropHelperRow
    rw [rowGet_filter_keys _ columns_to_drop_after_status_calc _ (by rfl)]
    unfold formatValidFrom
    rw [rowGet_rowSet_ne _ _ _ _ (by decide)]
    unfold assignStatusCols
    rw [rowGet_rowSet_self, had_fa]
  · intro hsup
    rw [rowGet_projectRow, hsup, if_pos rfl]
    unfold dropHelperRow
    rw [rowGet_filter_keys _ columns_to_drop_after_status_calc _ (by rfl)]
    unfold formatValidFrom
    rw [rowGet_rowSet_ne _ _ _ _ (by decide)]
    unfold assignStatusCols
    rw [rowGet_rowSet_ne _ _ _ _ (by decide), rowGet_rowSet_ne _ _ _ _ (by decide)]
    unfold applyDetails
    rw [rowGet_rowSet_ne _ _ _ _ (by decide), rowGet_rowSet_ne _ _ _ _ (by decide),
      rowGet_rowSet_ne _ _ _ _ (by decide), rowGet_rowSet_ne _ _ _ _ (by decide)]

/-- Helper: when every central partner matching a candidate row is approved
(and at least one exists), the candidate contributes no output row. -/
theorem finishRow_eq_nil_of_all_approved (cr : List Row) (outCols : List String) (p : Row)
    (hmatch : ∃ c ∈ cr, (rowGet c "comp_key" == rowGet p "comp_key") = true)
    (hall : ∀ c ∈ cr, (rowGet c "comp_key" == rowGet p "comp_key") = true →
      approvedCI (rowGet c "Status") = true) :
    finishRow cr outCols p = [] := by
  obtain ⟨c0, hc0, hp0⟩ := hmatch
  have hcm : c0 ∈ cr.filter (fun c' => rowGet c' "comp_key" == rowGet p "comp_key") :=
    List.mem_filter.mpr ⟨hc0, hp0⟩
  have hne : (cr.filter (fun c' => rowGet c' "comp_key" == rowGet p "comp_key")).isEmpty
      = false := by
    cases hms : cr.filter (fun c' => rowGet c' "comp_key" == rowGet p "comp_key") with
    | nil => rw [hms] at hcm; cases hcm
    | cons a l => rfl
  have hnil : ((mergeOne cr p).map applyDetails).filter keepRow = [] := by
    unfold mergeOne
    rw [if_neg (by rw [hne]; exact fun hh => Bool.noConfusion hh)]
    rw [List.filter_eq_nil_iff]
    intro x hx
    rw [List.map_map] at hx
    obtain ⟨c, hcf, hcx⟩ := List.mem_map.mp hx
    have hcr := List.mem_filter.mp hcf
    have happ := hall c hcr.1 hcr.2
    have hS : rowGet (rowSet (rowSet p "Status_central" (rowGet c "Status"))
        "Assigned To_central" (rowGet c "Assigned To")) "Status_central"
        = rowGet c "Status" := by
      rw [rowGet_rowSet_ne _ _ _ _ (by decide), rowGet_rowSet_self]
    have hbn : (rowGet c "Status" == Value.vNull) = false := by
      cases hv : rowGet c "Status" with
      | vStr s => rfl
      | vNum n => rw [hv] at happ; exact absurd happ (by simp [approvedCI])
      | vDate d => rw [hv] at happ; exact absurd happ (by simp [approvedCI])
      | vNull => rw [hv] at happ; exact absurd happ (by simp [approvedCI])
    have hdet : determine_final_output_details (rowSet (rowSet p "Status_central"
        (rowGet c "Status")) "Assigned To_central" (rowGet c "Assigned To"))
        = (Value.vNull, Value.vNull) := by
      unfold determine_final_output_details
      rw [hS, hbn, happ]
      simp
    have hx2 : x = applyDetails (rowSet (rowSet p "Status_central" (rowGet c "Status"))
        "Assigned To_central" (rowGet c "Assigned To")) := by rw [← hcx]; rfl
    rw [hx2]
    unfold keepRow applyDetails
    rw [hdet, rowGet_rowSet_ne _ _ _ _ (by decide), rowGet_rowSet_self]
    simp
  unfold finishRow
  rw [hnil]
  rfl

/-- Helper: the contribution of one candidate row has at most as many rows as
it has merge partners. -/
theorem finishRow_length_le (cr : List Row) (outCols : List String) (p : Row) :
    (finishRow cr outCols p).length ≤ (mergeOne cr p).length := by
  unfold finishRow
  simp only [List.length_map]
  calc ((((mergeOne cr p).map applyDetails).filter keepRow)).length
      ≤ (((mergeOne cr p).map applyDetails)).length := List.length_filter_le _ _
    _ = (mergeOne cr p).length := List.length_map _ _

/-- Helper: with pairwise distinct central keys, each candidate row has at
most one merge partner. -/
theorem mergeOne_length_le_one (cr : List Row) (p : Row)
    (hnodup : (cr.map (fun c => rowGet c "comp_key")).Nodup) :
    (mergeOne cr p).length ≤ 1 := by
  have hfil : ∀ (k : Value), (cr.filter (fun c => rowGet c "comp_key" == k)).length ≤ 1 := by
    intro k
    induction cr with
    | nil => simp
    | cons a l ih =>
      rw [List.map_cons, List.nodup_cons] at hnodup
      cases ha : rowGet a "comp_key" == k with
      | false =>
        rw [List.filter_cons_of_neg (by rw [ha]; exact fun hh => Bool.noConfusion hh)]
        exact ih hnodup.2
      | true =>
        rw [List.filter_cons_of_pos (by rw [ha])]
        have hlk : l.filter (fun c => rowGet c "comp_key" == k) = [] := by
          rw [List.filter_eq_nil_iff]
          intro c hcl hck
          have hak : rowGet a "comp_key" = k := by simpa using ha
          have hckk : rowGet c "comp_key" = k := by simpa using hck
          exact hnodup.1 (hak ▸ hckk ▸ List.mem_map.mpr ⟨c, hcl, rfl⟩)
        rw [hlk]
        simp
  dsimp only [mergeOne]
  split
  · simp
  · rw [List.length_map]
    exact hfil _

/-- Every merge partner of a candidate row is the candidate row with the two
central columns written (with null fill when unmatched). -/
theorem mergeOne_shape (cr : List Row) (p m : Row) (hm : m ∈ mergeOne cr p) :
    ∃ v1 v2, m = rowSet (rowSet p "Status_central" v1) "Assigned To_central" v2 := by
  dsimp only [mergeOne] at hm
  split at hm
  · exact ⟨Value.vNull, Value.vNull, (List.mem_singleton.mp hm)⟩
  · obtain ⟨c, hc, hcm⟩ := List.mem_map.mp hm
    exact ⟨rowGet c "Status", rowGet c "Assigned To", hcm.symm⟩

/-- The Country cell of an output row equals the Country cell of the candidate
row it came from, when the Country column is selected, and is null otherwise. -/
theorem rowGet_country_finishRow (cr : List Row) (outCols : List String) (p o : Row)
    (ho : o ∈ finishRow cr outCols p) :
    rowGet o "Country" =
      if outCols.contains "Country" = true then rowGet p "Country" else Value.vNull := by
  unfold finishRow at ho
  obtain ⟨r4, hr4, rfl⟩ := List.mem_map.mp ho
  obtain ⟨r3, hr3, rfl⟩ := List.mem_map.mp hr4
  obtain ⟨r2, hr2, rfl⟩ := List.mem_map.mp hr3
  obtain ⟨r1, hr1, rfl⟩ := List.mem_map.mp hr2
  have hr0 := (List.mem_filter.mp hr1).1
  obtain ⟨m, hm, rfl⟩ := List.mem_map.mp hr0
  obtain ⟨v1, v2, rfl⟩ := mergeOne_shape cr p m hm
  rw [rowGet_projectRow]
  split
  · unfold dropHelperRow
    rw [rowGet_filter_keys _ columns_to_drop_after_status_calc _ (by rfl)]
    unfold formatValidFrom
    rw [rowGet_rowSet_ne _ _ _ _ (by decide)]
    unfold assignStatusCols
    rw [rowGet_rowSet_ne _ _ _ _ (by decide), rowGet_rowSet_ne _ _ _ _ (by decide)]
    unfold applyDetails
    rw [rowGet_rowSet_ne _ _ _ _ (by decide), rowGet_rowSet_ne _ _ _ _ (by decide),
      rowGet_rowSet_ne _ _ _ _ (by decide), rowGet_rowSet_ne _ _ _ _ (by decide)]
  · rfl

/-- A non-synthetic column selected for output must already have been a column
of the prepared PMD frame. -/
theorem contains_finalFrameCols_of (l : List String) (c : String)
    (h : (finalFrameCols l).contains c = true)
    (h1 : (c == "Status_central") = false) (h2 : (c == "Assigned To_central") = false)
    (h3 : (c == "final_status") = false) (h4 : (c == "final_assigned_to") = false)
    (h5 : (c == "Status") = false) (h6 : (c == "Assigned To") = false)
    (h7 : (c == "Valid From") = false) :
    l.contains c = true := by
  simp only [finalFrameCols] at h
  rw [contains_filter_strings, Bool.and_eq_true] at h
  have h' := h.1
  have happ : ∀ hx : (appendIfAbsent (appendIfAbsent (appendIfAbsent (appendIfAbsent
      (l ++ ["Status_central", "Assigned To_central"]) "final_status")
      "final_assigned_to") "Status") "Assigned To").contains c = true,
      l.contains c = true := by
    intro hx
    rw [contains_appendIfAbsent, contains_appendIfAbsent, contains_appendIfAbsent,
      contains_appendIfAbsent, contains_append_strings] at hx
    simp only [h1, h2, h3, h4, h5, h6, Bool.or_false, List.contains_cons,
      List.contains_nil] at hx
    exact hx
  split at h'
  · rw [contains_appendIfAbsent] at h'
    simp only [h7, Bool.or_false] at h'
    exact happ h'
  · exact happ h'

/-- A prepared PMD row never carries an excluded country when the candidate
frame has a Country column (the exclusion filter ran on it). -/
theorem pmdPrepared_country (pmd : Table) (p : Row)
    (hp : p ∈ (pmdPrepared pmd).rows)
    (hcc : (dropColumnsTable pmd cols_to_drop).cols.contains "Country" = true) :
    valueIsin (rowGet p "Country") countries_to_exclude = false := by
  unfold pmdPrepared addCompKey dropnaTable addValidFromDt at hp
  simp only [List.mem_map] at hp
  obtain ⟨p1, hp1, rfl⟩ := hp
  rw [List.mem_filter] at hp1
  obtain ⟨p0, hp0, rfl⟩ := List.mem_map.mp hp1.1
  unfold countryFilterTable at hp0
  rw [if_pos hcc] at hp0
  have hkept := (List.mem_filter.mp hp0).2
  unfold makeCompKey
  rw [rowGet_rowSet_ne _ _ _ _ (by decide), rowGet_rowSet_ne _ _ _ _ (by decide)]
  cases hv : valueIsin (rowGet p0 "Country") countries_to_exclude with
  | false => rfl
  | true => rw [hv] at hkept; cases hkept

/-- A selected output column comes from the required list and the available
frame columns. -/
theorem pipelineOutCols_contains_of (pmd : Table) (c : String)
    (h1 : output_required_cols.contains c = true)
    (h2 : (finalFrameCols (pmdPrepared pmd).cols).contains c = true) :
    (pipelineOutCols pmd).contains c = true := by
  unfold pipelineOutCols
  rw [contains_filter_strings, h1, h2]
  rfl

/-- A non-helper column of the classified frame is available for output. -/
theorem finalFrameCols_contains_of_mem (l : List String) (c : String)
    (hc : l.contains c = true)
    (hh : columns_to_drop_after_status_calc.contains c = false) :
    (finalFrameCols l).contains c = true := by
  simp only [finalFrameCols]
  rw [contains_filter_strings]
  split <;>
    simp only [contains_appendIfAbsent, contains_append_strings, hc, hh,
      Bool.true_or, Bool.not_false, Bool.and_true]

/-- When the PMD column check passed, Supplier Name is among the prepared
columns. -/
theorem supplier_in_pmdPrepared_cols (pmd : Table)
    (hc2 : required_pmd_cols_for_check.all
      (fun c => (countryFilterTable (dropColumnsTable pmd cols_to_drop)).cols.contains c)
      = true) :
    (pmdPrepared pmd).cols.contains "Supplier Name" = true := by
  simp only [required_pmd_cols_for_check, List.all_cons, List.all_nil,
    Bool.and_eq_true, and_true] at hc2
  have hs := hc2.2
  rw [countryFilterTable_cols] at hs
  rw [pmdPrepared_cols, contains_appendIfAbsent, contains_appendIfAbsent, hs]
  rfl

/-- Supplier Name is selected for output whenever the PMD column check
passed. -/
theorem supplier_in_pipelineOutCols (pmd : Table)
    (hc2 : required_pmd_cols_for_check.all
      (fun c => (countryFilterTable (dropColumnsTable pmd cols_to_drop)).cols.contains c)
      = true) :
    (pipelineOutCols pmd).contains "Supplier Name" = true :=
  pipelineOutCols_contains_of pmd _ (by rfl)
    (finalFrameCols_contains_of_mem _ _ (supplier_in_pmdPrepared_cols pmd hc2) (by rfl))

/-- Pointwise equal column membership survives the PMD preparation. -/
theorem contains_pmdPrepared_congr (pmdA pmdB : Table)
    (h : ∀ c, pmdA.cols.contains c = pmdB.cols.contains c) (c : String) :
    (pmdPrepared pmdA).cols.contains c = (pmdPrepared pmdB).cols.contains c := by
  rw [pmdPrepared_cols, pmdPrepared_cols, contains_appendIfAbsent, contains_appendIfAbsent,
    contains_appendIfAbsent, contains_appendIfAbsent]
  simp only [dropColumnsTable]
  rw [contains_filter_strings, contains_filter_strings, h c]

/-- Pointwise equal column membership survives the classified-frame column
computation. -/
theorem contains_finalFrameCols_congr (l1 l2 : List String)
    (h : ∀ c, l1.contains c = l2.contains c) (c : String) :
    (finalFrameCols l1).contains c = (finalFrameCols l2).contains c := by
  have hc3 : ∀ c', (appendIfAbsent (appendIfAbsent (appendIfAbsent (appendIfAbsent
      (l1 ++ ["Status_central", "Assigned To_central"]) "final_status")
      "final_assigned_to") "Status") "Assigned To").contains c'
      = (appendIfAbsent (appendIfAbsent (appendIfAbsent (appendIfAbsent
      (l2 ++ ["Status_central", "Assigned To_central"]) "final_status")
      "final_assigned_to") "Status") "Assigned To").contains c' := by
    intro c'
    rw [contains_appendIfAbsent, contains_appendIfAbsent, contains_appendIfAbsent,
      contains_appendIfAbsent, contains_append_strings,
      contains_appendIfAbsent, contains_appendIfAbsent, contains_appendIfAbsent,
      contains_appendIfAbsent, contains_append_strings, h c']
  simp only [finalFrameCols]
  rw [contains_filter_strings, contains_filter_strings]
  congr 1
  split
  · rename_i hcond
    rw [if_pos ((hc3 "Valid From_dt") ▸ hcond)]
    simp only [contains_appendIfAbsent, contains_append_strings, h c]
  · rename_i hcond
    rw [if_neg (fun hx => hcond ((hc3 "Valid From_dt").symm ▸ hx))]
    simp only [contains_appendIfAbsent, contains_append_strings, h c]

/-- Helper shared by the matched-row claims: a matching non-approved central
row forces a Hold output row with the propagated Assigned To. -/
theorem hold_any_output (central pmd t : Table)
    (h : process_files central pmd = Except.ok t)
    (p : Row) (hp : p ∈ (pmdPrepared pmd).rows)
    (c : Row) (hc : c ∈ (centralPrepared central).rows)
    (hkey : rowGet c "comp_key" = rowGet p "comp_key")
    (happ : approvedCI (rowGet c "Status") = false) :
    (t.rows.any (fun o => rowGet o "Status" == Value.vStr "Hold" &&
      rowGet o "Assigned To" == rowGet c "Assigned To")) = true := by
  obtain ⟨hc1, hc2, hcols, hrows⟩ := process_files_ok_parts central pmd t h
  have hnn := centralPrepared_status_ne central c hc
  obtain ⟨o, ho, hoS, hoA⟩ := hold_mem_finishRow (centralPrepared central).rows
    (pipelineOutCols pmd) p c hc hkey hnn happ
    (pipelineOutCols_contains_status pmd) (pipelineOutCols_contains_assigned pmd)
  rw [hrows, List.any_eq_true]
  refine ⟨o, List.mem_flatMap.mpr ⟨p, hp, ho⟩, ?_⟩
  rw [hoS, hoA]
  simp

/-! ### Claim theorems -/

/-- Claim C1, counterexample: with a duplicated composite key in the reference
set, the single surviving candidate row yields two output rows, violating the
stated bound that output size never exceeds candidate size. -/
theorem c1_counterexample :
    (pmdPrepared pmdEx).rows.length = 1 ∧
    Except.map (fun t => t.rows.length) (process_files c1central pmdEx) = Except.ok 2 ∧
    ¬ (2 ≤ 1) :=
  ⟨rfl, by rfl, by omega⟩

/-- Claim C1 (amended): when the prepared reference rows have pairwise
distinct composite keys, each candidate row contributes at most one output
row, so the output has at most as many rows as the candidates remaining after
the row filter and normalization. -/
theorem c1_output_bound (central pmd t : Table)
    (h : process_files central pmd = Except.ok t)
    (hnodup : ((centralPrepared central).rows.map (fun c => rowGet c "comp_key")).Nodup) :
    t.rows.length ≤ (pmdPrepared pmd).rows.length := by
  obtain ⟨_, _, _, hrows⟩ := process_files_ok_parts central pmd t h
  rw [hrows]
  have hone : ∀ p, (rowContribution central pmd p).length ≤ 1 := fun p =>
    le_trans (finishRow_length_le _ _ _) (mergeOne_length_le_one _ _ hnodup)
  have hgen : ∀ (l : List Row), (l.flatMap (rowContribution central pmd)).length ≤ l.length := by
    intro l
    induction l with
    | nil => simp
    | cons a as ih =>
      rw [List.flatMap_cons, List.length_append]
      have := hone a
      simp only [List.length_cons]
      omega
  exact hgen _

/-- Witness for C1 on the concrete example run. -/
theorem c1_witness : outEx.rows.length ≤ (pmdPrepared pmdEx).rows.length :=
  c1_output_bound centralEx pmdEx outEx (by rfl) (by decide)

/-- Claim C2, counterexample: a reference row with a non-approved status but
no assignee value matches the candidate by composite key, yet the dropna step
(app.py line 90 includes Assigned To) removes that reference row before the
merge, so the candidate is classified New, not Hold: the output holds no Hold
row at all, refuting the claim in the very case it names. -/
theorem c2_counterexample :
    rowGet (makeCompKey c2cRaw) "comp_key" = rowGet pEx "comp_key" ∧
    approvedCI (rowGet c2cRaw "Status") = false ∧
    rowGet c2cRaw "Assigned To" = Value.vNull ∧
    (addValidFromDt c2central).rows = [c2cRaw] ∧
    (centralPrepared c2central).rows = [] ∧
    process_files c2central pmdEx = Except.ok c2out ∧
    (c2out.rows.map (fun o => rowGet o "Status")) = [Value.vStr "New"] ∧
    (c2out.rows.all (fun o => !(rowGet o "Status" == Value.vStr "Hold"))) = true :=
  ⟨by rfl, by rfl, by rfl, by rfl, by rfl, by rfl, by rfl, by rfl⟩

/-- Claim C2 (amended): a candidate row matching a reference row that survives
normalization (the dropna step removes reference rows whose Assigned To is
null, so a surviving row always carries an assignee) with status not
case-insensitively approved yields an output row with status Hold and the
assignee of that reference row, which is never empty.  A candidate whose only
matching reference rows lack an assignee finds no surviving match and is
classified New instead. -/
theorem c2_matched_nonapproved_hold (central pmd t : Table)
    (h : process_files central pmd = Except.ok t)
    (p : Row) (hp : p ∈ (pmdPrepared pmd).rows)
    (c : Row) (hc : c ∈ (centralPrepared central).rows)
    (hkey : rowGet c "comp_key" = rowGet p "comp_key")
    (happ : approvedCI (rowGet c "Status") = false) :
    rowGet c "Assigned To" ≠ Value.vNull ∧
    (t.rows.any (fun o => rowGet o "Status" == Value.vStr "Hold" &&
      rowGet o "Assigned To" == rowGet c "Assigned To")) = true :=
  ⟨centralPrepared_assigned_ne central c hc,
   hold_any_output central pmd t h p hp c hc hkey happ⟩

/-- Witness for C2 on the concrete example run. -/
theorem c2_witness :
    rowGet cEx "Assigned To" ≠ Value.vNull ∧
    (outEx.rows.any (fun o => rowGet o "Status" == Value.vStr "Hold" &&
      rowGet o "Assigned To" == rowGet cEx "Assigned To")) = true :=
  c2_matched_nonapproved_hold centralEx pmdEx outEx (by rfl) pEx (by decide)
    cEx (by decide) (by rfl) (by rfl)

/-- Claim C3, counterexample: supplier names are not trimmed, so names that
differ only in surrounding whitespace produce different composite keys, and a
row with an empty supplier name is kept rather than removed. -/
theorem c3_counterexample :
    ((pmdPrepared c3pmd).rows.map (fun r => rowGet r "comp_key"))
      = [Value.vStr "2024-01-01__ Acme", Value.vStr "2024-01-01__Acme",
         Value.vStr "2024-01-01__"] ∧
    Value.vStr "2024-01-01__ Acme" ≠ Value.vStr "2024-01-01__Acme" ∧
    (pmdPrepared c3pmd).rows.length = 3 :=
  ⟨by rfl, by decide, rfl⟩

/-- Claim C3 (amended): the supplier name enters the composite key untrimmed,
so two rows of equal date whose names differ by a leading space get different
keys; and normalization removes exactly the rows whose parsed date or supplier
name is null, keeping empty-string names. -/
theorem c3_untrimmed_keys :
    (∀ (r₁ r₂ : Row) (d : DateTime) (s : String),
      rowGet r₁ "Valid From_dt" = Value.vDate d →
      rowGet r₁ "Supplier Name" = Value.vStr (" " ++ s) →
      rowGet r₂ "Valid From_dt" = Value.vDate d →
      rowGet r₂ "Supplier Name" = Value.vStr s →
      rowGet (makeCompKey r₁) "comp_key" ≠ rowGet (makeCompKey r₂) "comp_key") ∧
    (∀ (t : Table) (r : Row),
      r ∈ (dropnaTable t ["Valid From_dt", "Supplier Name"]).rows ↔
        (r ∈ t.rows ∧ rowGet r "Valid From_dt" ≠ Value.vNull ∧
          rowGet r "Supplier Name" ≠ Value.vNull)) := by
  constructor
  · intro r₁ r₂ d s h1 h2 h3 h4 heq
    unfold makeCompKey at heq
    rw [rowGet_rowSet_self, rowGet_rowSet_self, h1, h2, h3, h4] at heq
    have hs := Value.vStr.inj heq
    have hlen := congrArg String.length hs
    simp only [astype_str, String.length_append] at hlen
    have hone : (" " : String).length = 1 := rfl
    omega
  · intro t r
    unfold dropnaTable
    rw [List.mem_filter]
    simp only [List.all_cons, List.all_nil, Bool.and_eq_true, Bool.and_true]
    constructor
    · rintro ⟨hm, h1, h2⟩
      exact ⟨hm, by simpa using h1, by simpa using h2⟩
    · rintro ⟨hm, h1, h2⟩
      exact ⟨hm, by simpa using h1, by simpa using h2⟩

/-- Witness for C3 on two concrete normalized rows. -/
theorem c3_witness :
    rowGet (makeCompKey r1W) "comp_key" ≠ rowGet (makeCompKey r2W) "comp_key" :=
  c3_untrimmed_keys.1 r1W r2W dEx "Acme" (by rfl) (by rfl) (by rfl) (by rfl)

/-- Claim C4, counterexample: a central table holding every column the
specification declares required (valid from, supplier name, status) but no
Assigned To column is rejected with the missing-columns failure, so the
assignee column is not optional in the code. -/
theorem c4_counterexample :
    (["Valid From", "Supplier Name", "Status"].all
      (fun c => c4central.cols.contains c)) = true ∧
    process_files c4central pmdEx
      = Except.error (ProcError.missingColumns "Central File"
          required_central_cols_for_check) :=
  ⟨rfl, by rfl⟩

/-- Claim C4 (amended): Assigned To is a required column of the central file:
whenever it is absent the invocation is rejected with a missing-columns
failure naming the central file and its full required-column list. -/
theorem c4_assigned_to_required (central pmd : Table)
    (h : central.cols.contains "Assigned To" = false) :
    process_files central pmd
      = Except.error (ProcError.missingColumns "Central File"
          required_central_cols_for_check) := by
  unfold process_files
  have hall : required_central_cols_for_check.all (fun c => central.cols.contains c)
      = false := by
    simp only [required_central_cols_for_check, List.all_cons, List.all_nil, h]
    simp
  rw [hall]
  rfl

/-- Witness for C4 on the concrete central table lacking Assigned To. -/
theorem c4_witness :
    process_files c4central pmdEx
      = Except.error (ProcError.missingColumns "Central File"
          required_central_cols_for_check) :=
  c4_assigned_to_required c4central pmdEx (by rfl)

/-- Claim C5, counterexample: the single candidate row matches an approved
reference row (every candidate does), yet the output still holds one row,
because a duplicate non-approved reference row with the same key also merges
against it.  The claim as stated would force an empty output here. -/
theorem c5_counterexample :
    ((pmdPrepared pmdEx).rows.all (fun p => (centralPrepared c5central).rows.any
      (fun c => rowGet c "comp_key" == rowGet p "comp_key"
        && approvedCI (rowGet c "Status")))) = true ∧
    (pmdPrepared pmdEx).rows.length = 1 ∧
    Except.map (fun t => t.rows.length) (process_files c5central pmdEx) = Except.ok 1 :=
  ⟨by decide, rfl, by rfl⟩

/-- Claim C5 (amended): a merged candidate and reference pair with approved
status is always dropped: a candidate row all of whose matching reference rows
are case-insensitively approved contributes no output row, and the output is
exactly the concatenation of the per-candidate contributions.  A candidate
that also matches a non-approved duplicate key still appears. -/
theorem c5_all_approved_dropped (central pmd t : Table)
    (h : process_files central pmd = Except.ok t)
    (p : Row) (hp : p ∈ (pmdPrepared pmd).rows)
    (hmatch : ∃ c ∈ (centralPrepared central).rows,
      (rowGet c "comp_key" == rowGet p "comp_key") = true)
    (hall : ∀ c ∈ (centralPrepared central).rows,
      (rowGet c "comp_key" == rowGet p "comp_key") = true →
      approvedCI (rowGet c "Status") = true) :
    rowContribution central pmd p = [] ∧
    t.rows = (pmdPrepared pmd).rows.flatMap (rowContribution central pmd) := by
  obtain ⟨_, _, _, hrows⟩ := process_files_ok_parts central pmd t h
  exact ⟨finishRow_eq_nil_of_all_approved _ _ p hmatch hall, hrows⟩

/-- Witness for C5 on the concrete run whose only reference row is approved. -/
theorem c5_witness :
    rowContribution c5wcentral pmdEx pEx = [] ∧
    c5wout.rows = (pmdPrepared pmdEx).rows.flatMap (rowContribution c5wcentral pmdEx) :=
  c5_all_approved_dropped c5wcentral pmdEx c5wout (by rfl) pEx (by decide)
    (by decide) (by decide)

/-- Claim C6: a candidate row whose composite key matches no surviving
reference row yields an output row with status New, an empty assignee, and its
own supplier name. -/
theorem c6_unmatched_new (central pmd t : Table)
    (h : process_files central pmd = Except.ok t)
    (p : Row) (hp : p ∈ (pmdPrepared pmd).rows)
    (hnomatch : ∀ c ∈ (centralPrepared central).rows,
      (rowGet c "comp_key" == rowGet p "comp_key") = false) :
    (t.rows.any (fun o => rowGet o "Status" == Value.vStr "New" &&
      rowGet o "Assigned To" == Value.vNull &&
      rowGet o "Supplier Name" == rowGet p "Supplier Name")) = true := by
  obtain ⟨hc1, hc2, hcols, hrows⟩ := process_files_ok_parts central pmd t h
  obtain ⟨o, ho, hoS, hoA, hoSup⟩ := new_mem_finishRow (centralPrepared central).rows
    (pipelineOutCols pmd) p hnomatch (pipelineOutCols_contains_status pmd)
    (pipelineOutCols_contains_assigned pmd)
  rw [hrows, List.any_eq_true]
  refine ⟨o, List.mem_flatMap.mpr ⟨p, hp, ho⟩, ?_⟩
  rw [hoS, hoA, hoSup (supplier_in_pipelineOutCols pmd hc2)]
  simp

/-- Witness for C6 on the concrete run with an unrelated reference row. -/
theorem c6_witness :
    (c6out.rows.any (fun o => rowGet o "Status" == Value.vStr "New" &&
      rowGet o "Assigned To" == Value.vNull &&
      rowGet o "Supplier Name" == rowGet pEx "Supplier Name")) = true :=
  c6_unmatched_new c6central pmdEx c6out (by rfl) pEx (by decide) (by decide)

/-- Claim C7: no output row ever carries a country from the exclusion set,
regardless of the match outcome; and when the candidate table has no Country
column the country filter removes no rows. -/
theorem c7_country_exclusion :
    (∀ (central pmd t : Table), process_files central pmd = Except.ok t →
      (t.rows.all (fun o => !valueIsin (rowGet o "Country") countries_to_exclude)) = true) ∧
    (∀ pmd : Table, pmd.cols.contains "Country" = false →
      (countryFilterTable pmd).rows = pmd.rows) := by
  constructor
  · intro central pmd t h
    obtain ⟨_, _, _, hrows⟩ := process_files_ok_parts central pmd t h
    rw [hrows, List.all_eq_true]
    intro o ho
    obtain ⟨p, hp, hof⟩ := List.mem_flatMap.mp ho
    have hval := rowGet_country_finishRow (centralPrepared central).rows
      (pipelineOutCols pmd) p o hof
    cases hcc : (pipelineOutCols pmd).contains "Country" with
    | false =>
      rw [hval, if_neg (by rw [hcc]; exact fun hh => Bool.noConfusion hh)]
      rfl
    | true =>
      rw [hval, if_pos hcc]
      have hffc : (finalFrameCols (pmdPrepared pmd).cols).contains "Country" = true := by
        unfold pipelineOutCols at hcc
        rw [contains_filter_strings, Bool.and_eq_true] at hcc
        exact hcc.2
      have hprep : (pmdPrepared pmd).cols.contains "Country" = true :=
        contains_finalFrameCols_of _ _ hffc rfl rfl rfl rfl rfl rfl rfl
      have hdc : (dropColumnsTable pmd cols_to_drop).cols.contains "Country" = true := by
        rw [pmdPrepared_cols, contains_appendIfAbsent, contains_appendIfAbsent,
          (by rfl : ("Country" == "Valid From_dt") = false),
          (by rfl : ("Country" == "comp_key") = false), Bool.or_false, Bool.or_false] at hprep
        exact hprep
      rw [pmdPrepared_country pmd p hp hdc]
      rfl
  · intro pmd hcc
    unfold countryFilterTable
    rw [if_neg (by rw [hcc]; exact fun hh => Bool.noConfusion hh)]

/-- Witness for C7: the concrete run keeps no excluded country, and the
country filter is inert on a table without a Country column. -/
theorem c7_witness :
    (outEx.rows.all (fun o => !valueIsin (rowGet o "Country") countries_to_exclude)) = true ∧
    (countryFilterTable noCountryTable).rows = noCountryTable.rows :=
  ⟨c7_country_exclusion.1 centralEx pmdEx outEx (by rfl),
   c7_country_exclusion.2 noCountryTable (by rfl)⟩

/-- Claim C8: when every candidate row is dropped during filtering, the merged
frame is empty and the two-column assignment of the classification result
raises a ValueError in pandas (apply on an empty frame returns a copy of the
frame, whose column count differs from two), so the invocation fails with the
unexpected-failure path instead of producing an empty output table. -/
theorem c8_empty_candidates_error :
    (pmdPrepared c8pmd).rows = [] ∧
    process_files centralEx c8pmd
      = Except.error (ProcError.unexpected "Columns must be same length as key") :=
  ⟨rfl, by rfl⟩

/-- Claim C9: the output columns are exactly the configured list restricted to
the columns available in the classified frame, in the order of the configured
list, and they depend only on which columns the candidate table has, not on
their order. -/
theorem c9_output_columns (central pmd t : Table)
    (h : process_files central pmd = Except.ok t) :
    t.cols = output_required_cols.filter
      (fun c => (finalFrameCols (pmdPrepared pmd).cols).contains c) ∧
    ∀ pmdB : Table, (∀ c, pmd.cols.contains c = pmdB.cols.contains c) →
      output_required_cols.filter
        (fun c => (finalFrameCols (pmdPrepared pmd).cols).contains c)
        = output_required_cols.filter
          (fun c => (finalFrameCols (pmdPrepared pmdB).cols).contains c) := by
  obtain ⟨_, _, hcols, _⟩ := process_files_ok_parts central pmd t h
  refine ⟨hcols, ?_⟩
  intro pmdB hB
  apply List.filter_congr
  intro c hc
  exact contains_finalFrameCols_congr _ _ (contains_pmdPrepared_congr pmd pmdB hB) c

/-- Witness for C9 on the concrete example run. -/
theorem c9_witness :
    outEx.cols = output_required_cols.filter
      (fun c => (finalFrameCols (pmdPrepared pmdEx).cols).contains c) :=
  (c9_output_columns centralEx pmdEx outEx (by rfl)).1

/-- Claim C10: a non-string status can never be read as approved, so the
classifier sends every matched row with a non-string status to Hold with the
propagated assignee, and such a candidate row is never dropped from the
output. -/
theorem c10_nonstring_status_hold :
    (∀ v : Value, valueIsString v = false → approvedCI v = false) ∧
    (∀ r : Row, valueIsString (rowGet r "Status_central") = false →
      rowGet r "Status_central" ≠ Value.vNull →
      determine_final_output_details r
        = (Value.vStr "Hold", rowGet r "Assigned To_central")) ∧
    (∀ (central pmd t : Table), process_files central pmd = Except.ok t →
      ∀ p ∈ (pmdPrepared pmd).rows, ∀ c ∈ (centralPrepared central).rows,
      rowGet c "comp_key" = rowGet p "comp_key" →
      valueIsString (rowGet c "Status") = false →
      (t.rows.any (fun o => rowGet o "Status" == Value.vStr "Hold" &&
        rowGet o "Assigned To" == rowGet c "Assigned To")) = true) := by
  have key : ∀ v : Value, valueIsString v = false → approvedCI v = false := by
    intro v hv
    cases v with
    | vStr s => exact absurd hv (by simp [valueIsString])
    | vNum n => rfl
    | vDate d => rfl
    | vNull => rfl
  refine ⟨key, ?_, ?_⟩
  · intro r hv hnn
    have hb : (rowGet r "Status_central" == Value.vNull) = false := by
      cases hq : rowGet r "Status_central" == Value.vNull with
      | false => rfl
      | true => exact absurd (by simpa using hq) hnn
    unfold determine_final_output_details
    rw [hb, key _ hv]
    simp
  · intro central pmd t h p hp c hc hkey hv
    exact hold_any_output central pmd t h p hp c hc hkey (key _ hv)

/-- Witness for C10 on the concrete run whose reference status is numeric. -/
theorem c10_witness :
    (c10out.rows.any (fun o => rowGet o "Status" == Value.vStr "Hold" &&
      rowGet o "Assigned To" == rowGet c10cEx "Assigned To")) = true :=
  c10_nonstring_status_hold.2.2 c10central pmdEx c10out (by rfl) pEx (by decide)
    c10cEx (by decide) (by rfl) (by rfl)
